import Mathlib

/-!
Verification of the curriculum-learning windowing notebook.

The corpus `dataset_text` is modelled as an arbitrary `List Char` parameter
(the notebook builds it from its own file contents, so its exact value is
not fixed here; all results hold for every corpus).  Python `len` and
slicing are embedded faithfully over `Int` endpoints, including clamping
and the negative-index wrap, and slicing is total, as in Python.
-/

/-- Python `len` of a string, as a Python integer. -/
def pyLen (s : List Char) : Int := s.length

/-- Resolve one endpoint of a Python slice `s[a:b]` against a string of
length `n`: a negative endpoint counts from the end and is clamped below
at `0`; a nonnegative endpoint is clamped above at `n`. -/
def sliceIdx (n : Int) (i : Int) : Int :=
  if i < 0 then max (n + i) 0 else min i n

/-- Python slicing `s[a:b]` with integer endpoints.  Total: slicing never
raises in Python. -/
def pySlice (xs : List Char) (a b : Int) : List Char :=
  (xs.take (sliceIdx (pyLen xs) b).toNat).drop (sliceIdx (pyLen xs) a).toNat

/-- The loop body of `generate_text`, run from a given `start_index`:
`while start_index < len(dataset_text) - length: yield dataset_text[start_index:start_index + length]; start_index += 1`.
The returned list is the sequence of yields of the remaining run. -/
def generateTextFrom (text : List Char) (length : Int) (start_index : Int) :
    List (List Char) :=
  if h : start_index < pyLen text - length then
    pySlice text start_index (start_index + length) ::
      generateTextFrom text length (start_index + 1)
  else
    []
termination_by (pyLen text - length - start_index).toNat
decreasing_by omega

/-- The full yield sequence of one run of the generator `generate_text`
built by `generate_generator length` (the loop starts at `start_index = 0`). -/
def generate_text (text : List Char) (length : Int) : List (List Char) :=
  generateTextFrom text length 0

/-- `generate_generator length` returns the zero-argument function that,
when called, produces the generator; we model the generator by its full
yield sequence. -/
def generate_generator (text : List Char) (length : Int) :
    Unit → List (List Char) :=
  fun _ => generate_text text length

/-- `MAX_LENGTH = 32` from the notebook. -/
def MAX_LENGTH : Nat := 32

/-- A curriculum phase dataset.  The framework transformations applied in
the notebook (`from_generator`, `map`, `shuffle`, `repeat`, `batch`) live in
the external library; a dataset is modelled by the source generator it
wraps. -/
structure Dataset where
  source : Unit → List (List Char)

/-- `datasets = [tf.data.Dataset.from_generator(generate_generator(length), ...)
for length in range(1, MAX_LENGTH + 1)]`. -/
def datasets (text : List Char) : List Dataset :=
  (List.range' 1 MAX_LENGTH).map
    (fun (length : Nat) => Dataset.mk (generate_generator text length))

/-- Trace semantics of one run of the generator: `GenRun text length s ws`
holds when a run of the loop beginning at `start_index = s` yields exactly
the sequence `ws`. -/
inductive GenRun (text : List Char) (length : Int) : Int → List (List Char) → Prop where
  | exit {start_index : Int} :
      ¬ start_index < pyLen text - length →
      GenRun text length start_index []
  | yield {start_index : Int} {rest : List (List Char)} :
      start_index < pyLen text - length →
      GenRun text length (start_index + 1) rest →
      GenRun text length start_index
        (pySlice text start_index (start_index + length) :: rest)

/-- The run from `start_index = s` yields the slices at `s, s+1, …` up to
(excluding) `pyLen text - length`. -/
theorem generateTextFrom_eq (text : List Char) (length : Int) :
    ∀ (n : Nat) (s : Int), (pyLen text - length - s).toNat = n →
      generateTextFrom text length s =
        (List.range n).map
          (fun (i : Nat) => pySlice text (s + i) (s + i + length)) := by
  intro n
  induction n with
  | zero =>
    intro s hs
    rw [generateTextFrom, dif_neg (by omega)]
    simp
  | succ n ih =>
    intro s hs
    rw [generateTextFrom, dif_pos (by omega), ih (s + 1) (by omega),
      List.range_succ_eq_map, List.map_cons, List.map_map]
    refine congrArg₂ List.cons (by norm_num) ?_
    refine List.map_congr_left fun i _ => ?_
    have h1 : s + 1 + (i : Int) = s + ((i : Nat).succ : Int) := by push_cast; ring
    rw [h1]
    rfl

/-- Closed form of a full run: the `i`-th yield is the slice starting at
offset `i`, and there are `(len(text) - length).toNat` yields. -/
theorem generate_text_eq (text : List Char) (length : Int) :
    generate_text text length =
      (List.range (pyLen text - length).toNat).map
        (fun (i : Nat) => pySlice text i (i + length)) := by
  rw [generate_text,
    generateTextFrom_eq text length (pyLen text - length).toNat 0 (by omega)]
  simp

/-- An in-range slice of natural endpoints is a `drop`-then-`take`. -/
theorem pySlice_eq_drop_take (text : List Char) (s L : Nat)
    (h : s + L ≤ text.length) :
    pySlice text s (s + L) = (text.drop s).take L := by
  simp only [pySlice, sliceIdx, pyLen]
  rw [if_neg (by omega), if_neg (by omega)]
  have h1 : (min ((s : Int) + L) (text.length : Int)).toNat = s + L := by omega
  have h2 : (min (s : Int) (text.length : Int)).toNat = s := by omega
  rw [h1, h2, List.take_drop]

/-- Characterisation over natural window lengths: the run yields the
windows `text[s : s+L]` for `s = 0, …, len(text) - L - 1` in order. -/
theorem generate_text_windows (text : List Char) (L : Nat) :
    generate_text text L =
      (List.range (text.length - L)).map
        (fun s => (text.drop s).take L) := by
  rw [generate_text_eq]
  have hn : (pyLen text - L).toNat = text.length - L := by
    simp only [pyLen]; omega
  rw [hn]
  refine List.map_congr_left fun s hs => ?_
  rw [List.mem_range] at hs
  have hL : s + L ≤ text.length := by omega
  have := pySlice_eq_drop_take text s L hL
  simpa using this

/-- The functional run realises the trace semantics from every state. -/
theorem genRun_generateTextFrom (text : List Char) (length : Int) :
    ∀ (n : Nat) (s : Int), (pyLen text - length - s).toNat = n →
      GenRun text length s (generateTextFrom text length s) := by
  intro n
  induction n with
  | zero =>
    intro s hs
    rw [generateTextFrom, dif_neg (by omega)]
    exact GenRun.exit (by omega)
  | succ n ih =>
    intro s hs
    rw [generateTextFrom, dif_pos (by omega)]
    exact GenRun.yield (by omega) (ih (s + 1) (by omega))

/-- A full run of `generate_text` is a trace of the semantics. -/
theorem genRun_generate_text (text : List Char) (length : Int) :
    GenRun text length 0 (generate_text text length) :=
  genRun_generateTextFrom text length _ 0 rfl

/-- The trace semantics is deterministic from every state. -/
theorem genRun_det (text : List Char) (length : Int) {s : Int}
    {ws1 ws2 : List (List Char)} (h1 : GenRun text length s ws1)
    (h2 : GenRun text length s ws2) : ws1 = ws2 := by
  revert h2
  induction h1 generalizing ws2 with
  | exit h =>
    intro h2
    cases h2 with
    | exit h2c => rfl
    | yield hc hrest => exact absurd hc h
  | yield hc hrest ih =>
    intro h2
    cases h2 with
    | exit h => exact absurd hc h
    | yield hc2 hrest2 => rw [ih hrest2]

/-- C1: for every window length `L` with `1 ≤ L < len(dataset_text)`, the
generator returned by `generate_generator L` produces exactly
`len(dataset_text) - L` windows before it is exhausted. -/
theorem generate_text_yield_count (text : List Char) (L : Nat)
    (_h1 : 1 ≤ L) (_h2 : L < text.length) :
    (generate_text text L).length = text.length - L := by
  rw [generate_text_windows]
  simp

/-- C1 witness at the corpus "abc" with `L = 1`. -/
theorem generate_text_yield_count_witness :
    (generate_text ['a', 'b', 'c'] 1).length = 3 - 1 :=
  generate_text_yield_count ['a', 'b', 'c'] 1 (by decide) (by decide)

/-- C2 counterexample: with corpus "ab" and `L = 1`, the offset
`s = 1 = len - L` satisfies `s + L ≤ len`, yet its full window "b" is not
produced: the run yields only `["a"]`, because the loop guard
`start_index < len(dataset_text) - length` is strict. -/
theorem generate_text_last_window_missing :
    generate_text ['a', 'b'] 1 = [['a']] ∧
      ['b'] ∉ generate_text ['a', 'b'] 1 := by
  have h := generate_text_windows ['a', 'b'] 1
  simp only [Nat.cast_one] at h
  rw [h]
  exact ⟨by decide, by decide⟩

/-- C2 (amended): for `1 ≤ L ≤ len(dataset_text)`, the generator yields a
window exactly at the start offsets `s` with `s + L < len(dataset_text)`
(the `i`-th yield being the window at offset `i`); the final full-length
window, at offset `len(dataset_text) - L`, is not produced. -/
theorem generate_text_offsets_exact (text : List Char) (L : Nat)
    (_h1 : 1 ≤ L) (h2 : L ≤ text.length) (s : Nat) :
    (generate_text text L)[s]? = some ((text.drop s).take L) ↔
      s + L < text.length := by
  rw [generate_text_windows, List.getElem?_map]
  constructor
  · intro h
    by_contra hge
    have hs : text.length - L ≤ s := by omega
    rw [List.getElem?_eq_none (by simpa using hs)] at h
    simp at h
  · intro h
    rw [List.getElem?_range (by omega)]
    rfl

/-- C2 witness: at the corpus "abc" with `L = 1`, offset `0` has
`0 + 1 < 3` and its window is yielded at position `0`. -/
theorem generate_text_offsets_exact_witness :
    (generate_text ['a', 'b', 'c'] 1)[0]? =
        some ((List.drop 0 ['a', 'b', 'c']).take 1) ↔
      0 + 1 < (['a', 'b', 'c'] : List Char).length :=
  generate_text_offsets_exact ['a', 'b', 'c'] 1 (by decide) (by decide) 0

/-- C3: for every window length `L ≥ 1`, every string yielded by the generator
has length exactly `L` and is a contiguous substring of the corpus (a
`drop`-then-`take` of `dataset_text` at some in-range offset `s`). -/
theorem generate_text_window_shape (text : List Char) (L : Nat) (h1 : 1 ≤ L) :
    ∀ w ∈ generate_text text L, w.length = L ∧
      ∃ s, s + L ≤ text.length ∧ w = (text.drop s).take L := by
  intro w hw
  rw [generate_text_windows] at hw
  simp only [List.mem_map, List.mem_range] at hw
  obtain ⟨s, hs, rfl⟩ := hw
  have hsL : s + L ≤ text.length := by omega
  refine ⟨?_, s, hsL, rfl⟩
  rw [List.length_take, List.length_drop]
  omega

/-- C3 witness: at the corpus "ab" with `L = 1`, the yielded window "a" has
length 1 and is a contiguous substring. -/
theorem generate_text_window_shape_witness :
    (['a'] : List Char).length = 1 ∧
      ∃ s, s + 1 ≤ (['a', 'b'] : List Char).length ∧
        (['a'] : List Char) = ((['a', 'b'] : List Char).drop s).take 1 :=
  generate_text_window_shape ['a', 'b'] 1 (by decide) ['a']
    (by rw [generate_text_windows]; decide)

/-- C4: for `L ≥ 1`, any two consecutively yielded windows overlap by exactly
`L - 1` characters: the `i`-th window with its first character removed equals
the `(i+1)`-st window with its last character removed. -/
theorem generate_text_consecutive_overlap (text : List Char) (L : Nat)
    (_h1 : 1 ≤ L) (i : Nat) (w w' : List Char)
    (hw : (generate_text text L)[i]? = some w)
    (hw' : (generate_text text L)[i + 1]? = some w') :
    w.drop 1 = w'.dropLast := by
  rw [generate_text_windows] at hw hw'
  have hi : i + 1 < text.length - L := by
    by_contra hge
    rw [List.getElem?_eq_none (by simp; omega)] at hw'
    simp at hw'
  rw [List.getElem?_map, List.getElem?_range (by omega)] at hw
  rw [List.getElem?_map, List.getElem?_range hi] at hw'
  simp only [Option.map_some', Option.some.injEq] at hw hw'
  subst hw
  subst hw'
  rw [List.drop_take, List.drop_drop, List.dropLast_eq_take, List.length_take,
    List.length_drop]
  have hmin : min L (text.length - (i + 1)) = L := by omega
  rw [hmin, List.take_take]
  have hmin2 : min (L - 1) L = L - 1 := by omega
  rw [hmin2]

/-- C4 witness: corpus "abcd", `L = 2`: the consecutive windows "ab" and "bc"
overlap in "b". -/
theorem generate_text_consecutive_overlap_witness :
    (['a', 'b'] : List Char).drop 1 = (['b', 'c'] : List Char).dropLast :=
  generate_text_consecutive_overlap ['a', 'b', 'c', 'd'] 2 (by decide) 0
    ['a', 'b'] ['b', 'c']
    (by rw [generate_text_windows]; decide)
    (by rw [generate_text_windows]; decide)

/-- C5: the invariant `0 ≤ start_index < len(text) - length` holds at every
yield: the `i`-th yield happens with `start_index = i`, `0 ≤ i`,
`i < len(text) - length`, and yields the slice `text[i : i + length]`; the
step `start_index += 1` moves yield `i` to yield `i + 1`. -/
theorem generate_text_start_index_invariant (text : List Char) (L : Nat)
    (_h1 : 1 ≤ L) (i : Nat) (hi : i < (generate_text text L).length) :
    0 ≤ (i : Int) ∧ (i : Int) < pyLen text - L ∧
      (generate_text text L)[i]? = some (pySlice text i (i + L)) := by
  rw [generate_text_eq] at hi ⊢
  rw [List.length_map, List.length_range] at hi
  refine ⟨by omega, by omega, ?_⟩
  rw [List.getElem?_map, List.getElem?_range hi]
  rfl

/-- C5 witness: corpus "ab", `L = 1`, first yield. -/
theorem generate_text_start_index_invariant_witness :
    0 ≤ (0 : Int) ∧ (0 : Int) < pyLen ['a', 'b'] - 1 ∧
      (generate_text ['a', 'b'] 1)[0]? = some (pySlice ['a', 'b'] 0 (0 + 1)) :=
  generate_text_start_index_invariant ['a', 'b'] 1 (by decide) 0
    (by rw [generate_text_eq]; decide)

/-- C6: exactly one dataset per curriculum phase: `datasets` has
`MAX_LENGTH = 32` entries, one for each window length `1, …, 32` in
increasing order, and the k-th dataset (1-based) wraps the generator
produced by `generate_generator k`. -/
theorem datasets_one_per_phase (text : List Char) :
    (datasets text).length = MAX_LENGTH ∧
      ∀ i : Nat, i < MAX_LENGTH →
        (datasets text)[i]? =
          some (Dataset.mk (generate_generator text ((i : Int) + 1))) := by
  constructor
  · rw [datasets, List.length_map, List.length_range']
  · intro i hi
    rw [datasets, List.getElem?_map, List.getElem?_range' 1 1 hi]
    simp only [Option.map_some']
    have hcast : ((1 + 1 * i : Nat) : Int) = (i : Int) + 1 := by push_cast; ring
    rw [hcast]

/-- C6 witness: the fifth dataset (1-based) wraps `generate_generator 5`. -/
theorem datasets_one_per_phase_witness :
    (datasets []).length = MAX_LENGTH ∧
      (datasets [])[4]? = some (Dataset.mk (generate_generator [] ((4 : Int) + 1))) :=
  ⟨(datasets_one_per_phase []).1, (datasets_one_per_phase []).2 4 (by decide)⟩

/-- C7: for every window length and every finite corpus the generator
terminates: its yield sequence is a finite list of at most
`len(dataset_text)` windows. -/
theorem generate_text_terminates (text : List Char) (L : Int) (h1 : 1 ≤ L) :
    (generate_text text L).length ≤ text.length := by
  rw [generate_text_eq, List.length_map, List.length_range]
  simp only [pyLen]
  omega

/-- C7 witness: corpus "ab", `L = 1`. -/
theorem generate_text_terminates_witness :
    (generate_text ['a', 'b'] 1).length ≤ (['a', 'b'] : List Char).length :=
  generate_text_terminates ['a', 'b'] 1 (by decide)

/-- C8: the generator adds no error branch: for every integer `length` a run
to exhaustion is total, yielding exactly `(len(dataset_text) - length).toNat`
windows (slicing itself is total, as in Python), and when
`len(dataset_text) - length ≤ 0` it yields zero windows. -/
theorem generate_text_total_no_error (text : List Char) (length : Int) :
    (generate_text text length).length = (pyLen text - length).toNat ∧
      (pyLen text - length ≤ 0 → generate_text text length = []) := by
  constructor
  · rw [generate_text_eq, List.length_map, List.length_range]
  · intro h
    rw [generate_text_eq]
    have h0 : (pyLen text - length).toNat = 0 := by omega
    rw [h0]
    rfl

/-- C8 witness: with corpus "ab", an oversized length 5 yields zero windows,
and even a negative length (-1) runs to a finite list without error. -/
theorem generate_text_total_no_error_witness :
    generate_text ['a', 'b'] 5 = [] ∧
      (generate_text ['a', 'b'] (-1)).length = (pyLen ['a', 'b'] - (-1)).toNat :=
  ⟨(generate_text_total_no_error ['a', 'b'] 5).2 (by decide),
    (generate_text_total_no_error ['a', 'b'] (-1)).1⟩

/-- C9: for every window length `L ≥ 1`, the final corpus character is never
contained in a yielded window: every window starts at an offset `s` with
`s + L ≤ len(text) - 1` and is a contiguous substring of the corpus with its
last character removed. -/
theorem generate_text_last_char_unused (text : List Char) (L : Nat)
    (h1 : 1 ≤ L) :
    ∀ w ∈ generate_text text L, ∃ s, s + L ≤ text.length - 1 ∧
      w = ((text.dropLast).drop s).take L := by
  intro w hw
  rw [generate_text_windows] at hw
  simp only [List.mem_map, List.mem_range] at hw
  obtain ⟨s, hs, rfl⟩ := hw
  refine ⟨s, by omega, ?_⟩
  rw [List.dropLast_eq_take, List.drop_take, List.take_take]
  have hmin : min L (text.length - 1 - s) = L := by omega
  rw [hmin]

/-- C9 witness: corpus "abc", `L = 1`: the window "a" lies inside "ab". -/
theorem generate_text_last_char_unused_witness :
    ∃ s, s + 1 ≤ (['a', 'b', 'c'] : List Char).length - 1 ∧
      (['a'] : List Char) =
        (((['a', 'b', 'c'] : List Char).dropLast).drop s).take 1 :=
  generate_text_last_char_unused ['a', 'b', 'c'] 1 (by decide) ['a']
    (by rw [generate_text_windows]; decide)

/-- C10: the windowing stage is deterministic: any two runs of the generator
on the same corpus and window length yield the same sequence of windows in
the same order. -/
theorem generate_text_deterministic (text : List Char) (length : Int)
    (ws1 ws2 : List (List Char)) (h1 : GenRun text length 0 ws1)
    (h2 : GenRun text length 0 ws2) : ws1 = ws2 :=
  genRun_det text length h1 h2

/-- C10 witness: a functional run and an explicitly derived trace on the
corpus "ab" with `L = 1` agree: both yield exactly `["a"]`. -/
theorem generate_text_deterministic_witness :
    generate_text ['a', 'b'] 1 = [['a']] :=
  generate_text_deterministic ['a', 'b'] 1 _ [['a']]
    (genRun_generate_text ['a', 'b'] 1)
    (GenRun.yield (by decide) (GenRun.exit (by decide)))
